import Mathlib

/-!
Verification development for the Vellum escaped-hashtag resolution engine and
data-source tree resolver (`src/src/commtrack.js`, datasources module, and
`src/unnamed/part_000`).  JavaScript values are embedded shallowly:

* JS `null`/`undefined`-able strings become `Option String`;
* `x || y` on strings becomes `jsOr` (empty string is falsy);
* string coercion `String(undefined) = "undefined"` becomes `jsKey`;
* JS objects used as string-keyed maps become association lists with
  assignment semantics (`objSet`: overwrite in place, else append);
* the lazily forced node tree becomes an explicit fueled walk threading the
  mutable `seen` object as state, in the forcing order of the one consumer
  in the repository (`builders.hashtags`).
-/

namespace Vellum

/-- JS truthiness for a nullable string: `null`/`undefined` and `""` are falsy. -/
def truthyS : Option String → Bool
  | none => false
  | some s => s ≠ ""

/-- JS `a || b` on nullable strings. -/
def jsOr (a b : Option String) : Option String :=
  if truthyS a then a else b

/-- JS `a || b` where the fallback is a plain string (e.g. `item.name || id`). -/
def jsOrS (a : Option String) (b : String) : String :=
  if truthyS a then a.getD "" else b

/-- JS string coercion of a nullable string: `String(undefined) = "undefined"`.
Used for object keys and for `+` string concatenation with `undefined`. -/
def jsKey : Option String → String
  | none => "undefined"
  | some s => s

/-- JS object property assignment on a string-keyed map: overwrite the value in
place when the key exists, otherwise append a new entry (insertion order). -/
def objSet {α : Type} (m : List (String × α)) (k : String) (v : α) : List (String × α) :=
  if m.any (fun p => p.1 = k) then
    m.map (fun p => if p.1 = k then (k, v) else p)
  else m ++ [(k, v)]

/-- Lookup in a JS-object association list. -/
def objGet {α : Type} (m : List (String × α)) (k : String) : Option α :=
  (m.find? (fun p => p.1 = k)).map (fun p => p.2)

/-- The backtick code point U+0060, the hashtag delimiter. -/
def backtick : Char := Char.ofNat 96

/-- A token of the escape tokenizer: a literal span or a backtick-delimited
hashtag span (content only, delimiters stripped). -/
inductive Tok : Type where
  | lit : String → Tok
  | tag : String → Tok
deriving DecidableEq, Repr

/-- Modelled from the spec: the Escape Tokenizer (spec §4.1).  The
implementation file `src/escapedHashtags.js` is not under `src/` (only its
test suite `src/tests/escapedHashtags.js` is), so the tokenizer is modelled
from the spec's words, pinned by the test fixtures: scanning is strictly by
code point; a backtick toggles hashtag-capture mode and the next backtick
closes it; an empty pair emits a literal backtick; an unterminated opening
backtick degrades to a literal span running to end of string (delimiter
included), never an error.  `mode = true` means inside a hashtag span, `buf`
is the pending span content. -/
def scan (mode : Bool) (buf : List Char) (cs : List Char) : List Tok :=
  match cs with
  | [] =>
    if mode then
      [Tok.lit (String.mk (backtick :: buf))]
    else if buf = [] then [] else [Tok.lit (String.mk buf)]
  | c :: rest =>
    if mode then
      if c = backtick then
        if buf = [] then
          Tok.lit (String.mk [backtick]) :: scan false [] rest
        else
          Tok.tag (String.mk buf) :: scan false [] rest
      else scan true (buf ++ [c]) rest
    else
      if c = backtick then
        if buf = [] then scan true [] rest
        else Tok.lit (String.mk buf) :: scan true [] rest
      else scan false (buf ++ [c]) rest

/-- Modelled from the spec: tokenize an input string (spec §4.1). -/
def tokenize (input : String) : List Tok :=
  scan false [] input.toList

/-- Characters before which no separating space is inserted after a rewritten
hashtag: whitespace and delimiter code points (spec §4.3: a space is inserted
only before an immediately-following non-whitespace, non-delimiter suffix,
e.g. `-1`; fixtures show none before `)`, before a backtick, or before
whitespace). -/
def noSpaceBefore (c : Char) : Bool :=
  c = ' ' || c = '\t' || c = '\n' || c = '(' || c = ')' || c = backtick

/-- Whether a space must be inserted between a rewritten hashtag token and the
rest of the token stream. -/
def spaceNeeded : List Tok → Bool
  | Tok.lit s :: _ =>
    match s.toList with
    | [] => false
    | c :: _ => !noSpaceBefore c
  | _ => false

/-- Modelled from the spec: the Hashtag Transformer (spec §4.2 and §8
fixtures; implementation file `src/escapedHashtags.js` is not under `src/`).
Literal tokens pass through unchanged; each hashtag token is rewritten by `f`
with its delimiters stripped; a single space is inserted before an
immediately-following non-whitespace, non-delimiter suffix. -/
def applyToks (f : String → String) : List Tok → String
  | [] => ""
  | Tok.lit s :: rest => s ++ applyToks f rest
  | Tok.tag s :: rest =>
    f s ++ (if spaceNeeded rest then " " else "") ++ applyToks f rest

/-- Modelled from the spec: `transform(input, map_fn)` (spec §4.2). -/
def transform (input : String) (f : String → String) : String :=
  applyToks f (tokenize input)

/-- The custom map of the transform test suite (`transformToProperty` in
`src/tests/escapedHashtags.js`): the last `/`-separated segment of the
input (the whole input when it has no slash). -/
def lastSegment (s : String) : String :=
  String.mk (s.toList.foldl (fun acc c => if c = '/' then [] else acc ++ [c]) [])

/-- A cross-source reference entry `{source?, subset?, key}`
(`src/src/commtrack.js`, data sources module header comment). -/
structure DSRef : Type where
  source : Option String
  subset : Option String
  key : String
deriving DecidableEq, Repr

/-- A JS descriptor object of the data sources module: data sources, subsets
and structure entries are all duck-typed objects distinguished only by which
fields are present, so they share one embedding.  `struct` is the JS
`structure` field (an object, embedded as an ordered association list —
JS preserves insertion order for string keys); `none` is an absent field,
`some []` an empty object/array (truthy in JS). -/
inductive Entity : Type where
  | mk (id uri path name : Option String)
       (struct : Option (List (String × Entity)))
       (reference : Option DSRef)
       (subsets : Option (List Entity))
       (related : Option (List (String × String)))
       (key : Option String) : Entity

def Entity.id : Entity → Option String
  | .mk i _ _ _ _ _ _ _ _ => i

def Entity.uri : Entity → Option String
  | .mk _ u _ _ _ _ _ _ _ => u

def Entity.path : Entity → Option String
  | .mk _ _ p _ _ _ _ _ _ => p

def Entity.name : Entity → Option String
  | .mk _ _ _ n _ _ _ _ _ => n

def Entity.struct : Entity → Option (List (String × Entity))
  | .mk _ _ _ _ s _ _ _ _ => s

def Entity.reference : Entity → Option DSRef
  | .mk _ _ _ _ _ r _ _ _ => r

def Entity.subsets : Entity → Option (List Entity)
  | .mk _ _ _ _ _ _ s _ _ => s

def Entity.related : Entity → Option (List (String × String))
  | .mk _ _ _ _ _ _ _ r _ => r

def Entity.key : Entity → Option String
  | .mk _ _ _ _ _ _ _ _ k => k

/-- `_.indexBy(sources, "id")` followed by property lookup: keys are the
JS string coercions of the `id` fields, later entries overwrite earlier
ones, so a lookup returns the last source whose coerced id matches. -/
def indexById (srcs : List Entity) (k : String) : Option Entity :=
  srcs.foldl (fun acc e => if jsKey e.id = k then some e else acc) none

/-- A resolved data node (`builders.dataNodes`): the fields of the object
literal returned by `node(...)`, plus the values captured by the lazy
`getNodes` thunk (`source`, `path`, `info` as they stand after `getTree`),
which determine the node's children.  The JS field `hashtagPrefix` is named
`hashtagPfx` here. -/
structure DataNode : Type where
  name : String
  hashtag : Option String
  hashtagPfx : Option String
  parentPath : Option String
  xpath : String
  index : Bool
  recursive : Bool
  childSrc : Option Entity
  childPath : String
  childInfo : Entity

/-- The part of `getTree`'s result consumed by `node(...)` and by the
deferred child expansion. -/
structure TreeOut : Type where
  name : String
  recursive : Bool
  childSrc : Option Entity
  childPath : String
  childInfo : Entity

/-- Subset selection in `getTree` (`src/src/commtrack.js` lines 498–504):
`if (source.subsets && ref.subset) source = _.findWhere(source.subsets,
{id: ref.subset, key: "@case_type"}) || source;` — the matched subset
*replaces* `source`. -/
def resolveSubset (src0 : Entity) (ref : DSRef) : Entity :=
  if src0.subsets.isSome && truthyS ref.subset then
    ((src0.subsets.getD []).find?
      (fun s => s.id == ref.subset && s.key == some ("@case_type"))).getD src0
  else src0

/-- The rewritten path of a reference node's children
(`src/src/commtrack.js` lines 496–497):
`"instance('" + source.id + "')" + source.path + "[" + ref.key + " = " + path + "]"`. -/
def instancePath (src0 : Entity) (refKey : String) (path : String) : String :=
  "instance('" ++ jsKey src0.id ++ "')" ++ jsKey src0.path ++
    "[" ++ refKey ++ " = " ++ path ++ "]"

/-- `getTree(item, id, path, info)` (`src/src/commtrack.js` lines 487–524),
with the build-wide mutable `seen` object threaded explicitly.  The local
`path`/`source`/`info` reassignments are visible only to the `getNodes`
thunk (returned here as `childSrc`/`childPath`/`childInfo`); the caller's
`path` (the node's `xpath`) is unchanged.  `seen` is keyed on the
(post-subset-selection) source id and entries are never removed. -/
def getTree (srcs : List Entity) (item : Entity) (id path : String)
    (info : Entity) (seen : List String) : TreeOut × List String :=
  let name0 := jsOrS item.name id
  match item.struct, item.reference with
  | none, some ref =>
    match indexById srcs (jsKey (jsOr ref.source info.id)) with
    | none =>
      ({ name := name0, recursive := false, childSrc := none,
         childPath := path, childInfo := info }, seen)
    | some src0 =>
      let path' := instancePath src0 ref.key path
      let src1 := resolveSubset src0 ref
      let cand := jsOr src1.name src1.id
      let nm := if truthyS cand then cand.getD "" else name0
      if seen.contains (jsKey src1.id) then
        ({ name := nm, recursive := true, childSrc := some src1,
           childPath := path', childInfo := src0 }, seen)
      else
        ({ name := nm, recursive := false, childSrc := some src1,
           childPath := path', childInfo := src0 }, jsKey src1.id :: seen)
  | _, _ =>
    ({ name := name0, recursive := false, childSrc := some item,
       childPath := path, childInfo := info }, seen)

/-- The curried `node(source, parentPath, info, index)(item, id)` builder
(`src/src/commtrack.js` lines 459–486).  Returns `none` (JS `null`) for ids
in the `invalidCaseProperties` denylist.  `info` is the JS info object, of
which the logic only ever reads `id`; the `_parent` chain is write-only and
is dropped here. -/
def nodeFn (srcs : List Entity) (invalid : List String) (source : Option Entity)
    (parentPath : Option String) (info : Entity) (index : Bool)
    (item : Entity) (id : String) (seen : List String) :
    Option DataNode × List String :=
  if invalid.contains id then (none, seen)
  else
    let path := if truthyS parentPath then parentPath.getD "" ++ "/" ++ id else id
    match getTree srcs item id path info seen with
    | (⟨nm, rec, cSrc, cPath, cInfo⟩, seen') =>
      let pfx : Option String :=
        match source with
        | some s =>
          if jsKey s.id ≠ "commcaresession" then
            some ("#case/" ++ (if jsKey s.id ≠ "case" then jsKey s.id ++ "/" else ""))
          else none
        | none => none
      (some { name := nm, hashtag := pfx.map (fun p => p ++ id),
              hashtagPfx := pfx, parentPath := parentPath, xpath := path,
              index := index, recursive := rec,
              childSrc := cSrc, childPath := cPath,
              childInfo := cInfo }, seen')

/-- `_.map` over an object's entries with the shared mutable `seen` threaded
in entry order. -/
def mapThread {α β σ : Type} (f : α → σ → β × σ) : List α → σ → List β × σ
  | [], s => ([], s)
  | a :: as, s =>
    match f a s with
    | (b, s') =>
      match mapThread f as s' with
      | (bs, s'') => (b :: bs, s'')

/-- The order underscore's `_.sortBy` comparator induces on criteria values:
for distinct values, `undefined` sorts last and strings sort by `<`; for
identical criteria the comparator falls back to the stable index order. -/
def critLt : Option String → Option String → Bool
  | none, _ => false
  | some _, none => true
  | some x, some y => decide (x < y)

/-- Stable insertion of `x` before the first element not below it. -/
def insertBy {α : Type} (key : α → Option String) (x : α) : List α → List α
  | [] => [x]
  | y :: ys => if critLt (key y) (key x) then y :: insertBy key x ys else x :: y :: ys

/-- Stable sort by an `Option String` criterion, modelling `_.sortBy`. -/
def jsSortBy {α : Type} (key : α → Option String) : List α → List α
  | [] => []
  | x :: xs => insertBy key x (jsSortBy key xs)

/-- The iteratee of `_.sortBy(nodes, "text")` in `getNodes`: a `DataNode`
has no `text` property, so the criterion is `undefined` for every node. -/
def critText (_ : DataNode) : Option String := none

/-- `getNodes(source, path, info)` (`src/src/commtrack.js` lines 525–544):
build one level of child nodes.  Structural children are built first (in
structure order, threading `seen`), compacted and sorted by the missing
`text` key; when `source.related` is present, relation nodes are then built
(contributing their own `seen` updates) and prepended.  JS omits the
`.compact()` on the related chain, so a denylisted relation name would leave
a `null` that makes the later walk throw; that crashing corner is modelled by
compacting here as well. -/
def getNodes (srcs : List Entity) (invalid : List String) (source : Option Entity)
    (path : String) (info : Entity) (seen : List String) :
    List DataNode × List String :=
  match source with
  | none => ([], seen)
  | some s =>
    match (match s.struct with
           | some entries =>
             mapThread (fun (p : String × Entity) st =>
               nodeFn srcs invalid source (some path) info false p.2 p.1 st) entries seen
           | none => ([], seen)) with
    | (structRaw, seen1) =>
      let structNodes := jsSortBy critText (structRaw.filterMap (fun x => x))
      match s.related with
      | some rels =>
        match mapThread (fun (p : String × String) st =>
            let item := Entity.mk none none none none none
              (some ⟨none, some p.2, "@case_id"⟩) none none none
            nodeFn srcs invalid source (some (path ++ "/index")) info true item p.1 st)
            rels seen1 with
        | (relRaw, seen2) =>
          (jsSortBy critText (relRaw.filterMap (fun x => x)) ++ structNodes, seen2)
      | none => (structNodes, seen1)

/-- The root path `"instance('" + source.id + "')" + source.path` built for
the `commcaresession` source (`src/src/commtrack.js` line 554). -/
def rootPath (s : Entity) : String :=
  "instance('" ++ jsKey s.id ++ "')" ++ jsKey s.path

/-- `builders.dataNodes` (`src/src/commtrack.js` lines 546–559) for a loaded
source list: `none` when no `commcaresession` source is present; otherwise
the root node is built for that source and immediately discarded in favour of
its children (`node(source, null, info)(source, path).getNodes()` — "do not
show Session node for now").  Returns the exposed nodes together with the
`seen` state shared with the later hashtag walk.  (If the root path string
itself were denylisted, JS would throw on `null.getNodes()`; that crashing
corner is modelled as `none`.) -/
def dataNodesL (srcs : List Entity) (invalid : List String) :
    Option (List DataNode × List String) :=
  match indexById srcs ("commcaresession") with
  | none => none
  | some s =>
    match nodeFn srcs invalid (some s) none s false s (rootPath s) [] with
    | (some root, seen) =>
      some (getNodes srcs invalid root.childSrc root.childPath root.childInfo seen)
    | (none, _) => none

/-- The `{map, transforms}` accumulator of `builders.hashtags`.  A transform
entry records the `node.parentPath` captured by the stored closure
`function (prop) { return node.parentPath + "/" + prop; }`; `applyTransform`
gives the closure's meaning. -/
structure Hashtags : Type where
  map : List (String × String)
  transforms : List (String × Option String)
deriving DecidableEq, Repr

/-- Meaning of a stored hashtag-prefix transform closure. -/
def applyTransform (pp : Option String) (prop : String) : String :=
  jsKey pp ++ "/" ++ prop

/-- The recording step of the walk (`src/src/commtrack.js` lines 568–573):
`if (node.hashtag && !node.index) { hashtags.map[node.hashtag] = node.xpath;
hashtags.transforms[node.hashtagPrefix] = ...; }`. -/
def recordNode (n : DataNode) (acc : Hashtags) : Hashtags :=
  if truthyS n.hashtag && !n.index then
    { map := objSet acc.map (jsKey n.hashtag) n.xpath,
      transforms := objSet acc.transforms (jsKey n.hashtagPfx) n.parentPath }
  else acc

/-- One level of the depth-first walk of `builders.hashtags`
(`src/src/commtrack.js` lines 566–579): record each node, and for
non-`recursive` nodes recurse into `node.getNodes()` via `descend`.
Forcing a `getNodes` thunk builds that level with the shared `seen` state,
so `seen` is threaded in visiting order. -/
def walkGo (srcs : List Entity) (invalid : List String)
    (descend : List DataNode → List String → Hashtags → Option (Hashtags × List String)) :
    List DataNode → List String → Hashtags → Option (Hashtags × List String)
  | [], seen, acc => some (acc, seen)
  | n :: rest, seen, acc =>
    let acc1 := recordNode n acc
    if n.recursive then
      walkGo srcs invalid descend rest seen acc1
    else
      match getNodes srcs invalid n.childSrc n.childPath n.childInfo seen with
      | (children, seen') =>
        match descend children seen' acc1 with
        | none => none
        | some (acc2, seen2) => walkGo srcs invalid descend rest seen2 acc2

/-- The walk of `builders.hashtags`.  JS recursion is unbounded; `fuel`
bounds the expansion depth and `none` means the bound was hit before the
walk finished. -/
def walk (srcs : List Entity) (invalid : List String) :
    Nat → List DataNode → List String → Hashtags → Option (Hashtags × List String)
  | 0 => walkGo srcs invalid (fun _ _ _ => none)
  | fuel + 1 => walkGo srcs invalid (walk srcs invalid fuel)

/-- One level of the same traversal as `walkGo`, recording the visited nodes
in depth-first order instead of the hashtag maps.  A `recursive` node is
itself visited but its children are not expanded. -/
def visitGo (srcs : List Entity) (invalid : List String)
    (descend : List DataNode → List String → Option (List DataNode × List String)) :
    List DataNode → List String → Option (List DataNode × List String)
  | [], seen => some ([], seen)
  | n :: rest, seen =>
    if n.recursive then
      match visitGo srcs invalid descend rest seen with
      | none => none
      | some (tr, s) => some (n :: tr, s)
    else
      match getNodes srcs invalid n.childSrc n.childPath n.childInfo seen with
      | (children, seen') =>
        match descend children seen' with
        | none => none
        | some (trc, seen2) =>
          match visitGo srcs invalid descend rest seen2 with
          | none => none
          | some (trr, seen3) => some (n :: (trc ++ trr), seen3)

/-- The visited-node trace of the walk, with fuel consumed exactly as in
`walk`. -/
def visit (srcs : List Entity) (invalid : List String) :
    Nat → List DataNode → List String → Option (List DataNode × List String)
  | 0 => visitGo srcs invalid (fun _ _ => none)
  | fuel + 1 => visitGo srcs invalid (visit srcs invalid fuel)

/-- `builders.hashtags` (`src/src/commtrack.js` lines 565–582) on a loaded
source list: walk the data nodes, starting from the accumulator
`{map: {}, transforms: {}}` and the `seen` state left by `builders.dataNodes`. -/
def hashtagsBuilder (srcs : List Entity) (invalid : List String) (fuel : Nat) :
    Option (Hashtags × List String) :=
  match dataNodesL srcs invalid with
  | none => none
  | some (nodes, seen) => walk srcs invalid fuel nodes seen ⟨[], []⟩

/-- The visited-node trace of the same computation. -/
def visitTop (srcs : List Entity) (invalid : List String) (fuel : Nat) :
    Option (List DataNode × List String) :=
  match dataNodesL srcs invalid with
  | none => none
  | some (nodes, seen) => visit srcs invalid fuel nodes seen

/-- Folding the recording step over a list of visited nodes. -/
def foldRecord (tr : List DataNode) (acc : Hashtags) : Hashtags :=
  tr.foldl (fun a n => recordNode n a) acc

/-- Whether the walk records entries for a node, as the spec states it:
`hashtag != null && !index`. -/
def tagRecorded (n : DataNode) : Bool := n.hashtag.isSome && !n.index

/-- The two parts of one level of children as the spec describes them,
without the vacuous sort: relation-derived nodes and structural children,
each in enumeration order, with `seen` threaded in construction order
(structural entries first, then relations). -/
def levelParts (srcs : List Entity) (invalid : List String) (source : Option Entity)
    (path : String) (info : Entity) (seen : List String) :
    (List DataNode × List DataNode) × List String :=
  match source with
  | none => (([], []), seen)
  | some s =>
    match (match s.struct with
           | some entries =>
             mapThread (fun (p : String × Entity) st =>
               nodeFn srcs invalid source (some path) info false p.2 p.1 st) entries seen
           | none => ([], seen)) with
    | (structRaw, seen1) =>
      let structNodes := structRaw.filterMap (fun x => x)
      match s.related with
      | some rels =>
        match mapThread (fun (p : String × String) st =>
            let item := Entity.mk none none none none none
              (some ⟨none, some p.2, "@case_id"⟩) none none none
            nodeFn srcs invalid source (some (path ++ "/index")) info true item p.1 st)
            rels seen1 with
        | (relRaw, seen2) =>
          ((relRaw.filterMap (fun x => x), structNodes), seen2)
      | none => (([], structNodes), seen1)

/-- The compiled maps as the spec describes them: entries for exactly the
visited nodes with `hashtag != null && !index`, in visiting order. -/
def specCompile (tr : List DataNode) : Hashtags :=
  { map := (tr.filter tagRecorded).foldl
      (fun m n => objSet m (jsKey n.hashtag) n.xpath) [],
    transforms := (tr.filter tagRecorded).foldl
      (fun m n => objSet m (jsKey n.hashtagPfx) n.parentPath) [] }

/-- The placeholder source installed when a data-source load completes with
an empty list (`src/src/commtrack.js` lines 372–378 and
`src/unnamed/part_000` lines 113–120). -/
def notFoundSource : Entity :=
  Entity.mk (some ("")) (some ("")) (some ("")) (some ("Not Found"))
    (some []) none none none none

/-- The cached source list installed by `finish(data)`:
`data.length ? data : [notFoundSource]`. -/
def finishSources (data : List Entity) : List Entity :=
  if data.length ≠ 0 then data else [notFoundSource]

/-- The datasources loader state relevant to error handling: the derived
value cache (in particular a previously compiled hashtag bundle) and the
retry timeout (`that.reset()` sets it to 1000). -/
structure LoaderState : Type where
  cache : Option Hashtags
  retryTimeout : Nat
deriving DecidableEq, Repr

/-- `that.reset()` initialises `retryTimeout = 1000`
(`src/src/commtrack.js` lines 320–323). -/
def initialRetryTimeout : Nat := 1000

/-- `onError` (`src/src/commtrack.js` lines 383–398): fire the error event,
log, and — when `retryTimeout < 8001` — schedule `loadDataSources` again
after the timeout and double the timeout ("exponential backoff retry",
"8000 = 4 retries").  The cache is left untouched.  The returned flag is
whether a retry was scheduled. -/
def onError (st : LoaderState) : LoaderState × Bool :=
  if st.retryTimeout < 8001 then
    ({ st with retryTimeout := st.retryTimeout * 2 }, true)
  else (st, false)

/-! Concrete descriptor lists used to exercise the builders. -/

/-- A leaf structure entry `{}`. -/
def leafEnt : Entity :=
  Entity.mk none none none none none none none none none

/-- A structure entry carrying only a `reference`. -/
def refEnt (src sub : Option String) (key : String) : Entity :=
  Entity.mk none none none none none (some ⟨src, sub, key⟩) none none none

/-- A nested container entry `{structure: {...}}`. -/
def structEnt (entries : List (String × Entity)) : Entity :=
  Entity.mk none none none none (some entries) none none none none

/-- A data source descriptor `{id, path, structure}`. -/
def sourceEnt (id path : String) (entries : List (String × Entity)) : Entity :=
  Entity.mk (some id) none (some path) none (some entries) none none none none

/-- A subset descriptor `{id, key, name, structure}`. -/
def subsetEnt (id key name : String) (entries : List (String × Entity)) : Entity :=
  Entity.mk (some id) none none (some name) (some entries) none none none (some key)

/-- Cyclic graph: the session references source `A`, `A` references `B`,
and `B` references back to `A`. -/
def cycSources : List Entity :=
  [sourceEnt ("commcaresession") ("/session/data")
     [(("caseref"), refEnt (some ("A")) none ("@case_id"))],
   sourceEnt ("A") ("/A")
     [(("name"), leafEnt), (("bref"), refEnt (some ("B")) none ("@kb"))],
   sourceEnt ("B") ("/B")
     [(("color"), leafEnt), (("aref"), refEnt (some ("A")) none ("@ka"))]]

/-- Acyclic graph in which the same source `T` is referenced from two
disjoint sibling branches `p` and `q` of the session structure. -/
def sibSources : List Entity :=
  [sourceEnt ("commcaresession") ("/session")
     [(("p"), structEnt [(("x"), refEnt (some ("T")) none ("@k1"))]),
      (("q"), structEnt [(("y"), refEnt (some ("T")) none ("@k2"))])],
   sourceEnt ("T") ("/T") [(("name"), leafEnt)]]

/-- A source `A` with base structure `{name}` and a subset `mother` whose
structure adds `{color}`; the session references the subset. -/
def subSources : List Entity :=
  [sourceEnt ("commcaresession") ("/session")
     [(("mother-case"), refEnt (some ("A")) (some ("mother")) ("@case_id"))],
   Entity.mk (some ("A")) none (some ("/A")) (some ("Case A"))
     (some [(("name"), leafEnt)]) none
     (some [subsetEnt ("mother") ("@case_type") ("Mother") [(("color"), leafEnt)]])
     none none]

/-- Session whose structure enumerates ids in non-alphabetical order. -/
def unsortedSources : List Entity :=
  [sourceEnt ("commcaresession") ("/session")
     [(("b"), leafEnt), (("a"), leafEnt)]]

/-- A descriptor list with one well-formed leaf and one reference to a
non-existent source id. -/
def badRefSources : List Entity :=
  [sourceEnt ("commcaresession") ("/session")
     [(("good"), leafEnt), (("bad"), refEnt (some ("NOPE")) none ("@k"))]]

/-! ## Supporting lemmas -/

theorem insertBy_critText (x : DataNode) (l : List DataNode) :
    insertBy critText x l = x :: l := by
  cases l with
  | nil => rfl
  | cons y ys => simp [insertBy, critText, critLt]

/-- `_.sortBy(nodes, "text")` is the identity: every criterion is
`undefined`, so the comparator always falls back to the stable index
order. -/
theorem jsSortBy_critText (l : List DataNode) : jsSortBy critText l = l := by
  induction l with
  | nil => rfl
  | cons x xs ih => rw [jsSortBy, ih, insertBy_critText]

theorem mapThread_mem {α β σ : Type} (f : α → σ → β × σ) :
    ∀ (l : List α) (s : σ) (b : β), b ∈ (mapThread f l s).1 →
      ∃ a s', a ∈ l ∧ b = (f a s').1 := by
  intro l
  induction l with
  | nil => intro s b h; simp [mapThread] at h
  | cons a as ih =>
    intro s b h
    rw [mapThread] at h
    rcases hfa : f a s with ⟨b0, s0⟩
    rw [hfa] at h
    dsimp only at h
    rcases hmt : mapThread f as s0 with ⟨bs, s1⟩
    rw [hmt] at h
    dsimp only at h
    rcases List.mem_cons.mp h with h1 | h2
    · exact ⟨a, s, List.mem_cons_self a as, by rw [h1, hfa]⟩
    · rcases ih s0 b (by rw [hmt]; exact h2) with ⟨a', s', ha, hb⟩
      exact ⟨a', s', List.mem_cons_of_mem a ha, hb⟩

/-- `getNodes` builds the relation-derived nodes followed by the structural
children in enumeration order: the `_.sortBy(nodes, "text")` calls are
stable no-ops. -/
theorem getNodes_eq_levelParts (srcs : List Entity)
    (invalid : List String) (source : Option Entity) (path : String)
    (info : Entity) (seen : List String) :
    getNodes srcs invalid source path info seen =
      ((levelParts srcs invalid source path info seen).1.1 ++
         (levelParts srcs invalid source path info seen).1.2,
       (levelParts srcs invalid source path info seen).2) := by
  cases source with
  | none => rfl
  | some s =>
    rw [getNodes, levelParts]
    rcases hs : (match s.struct with
           | some entries =>
             mapThread (fun (p : String × Entity) st =>
               nodeFn srcs invalid (some s) (some path) info false p.2 p.1 st) entries seen
           | none => ([], seen)) with ⟨structRaw, seen1⟩
    cases hr : s.related with
    | none => simp [jsSortBy_critText]
    | some rels =>
      rcases hm : mapThread (fun (p : String × String) st =>
          let item := Entity.mk none none none none none
            (some ⟨none, some p.2, "@case_id"⟩) none none none
          nodeFn srcs invalid (some s) (some (path ++ "/index")) info true item p.1 st)
          rels seen1 with ⟨relRaw, seen2⟩
      simp [jsSortBy_critText]

theorem scan_no_backtick :
    ∀ (cs buf : List Char), (∀ c ∈ cs, c ≠ backtick) →
      scan false buf cs =
        (if buf ++ cs = [] then [] else [Tok.lit (String.mk (buf ++ cs))]) := by
  intro cs
  induction cs with
  | nil => intro buf _; simp [scan]
  | cons c rest ih =>
    intro buf h
    have hc : ¬ (c = backtick) := h c (List.mem_cons_self c rest)
    rw [scan]
    simp only [hc, if_false]
    rw [ih (buf ++ [c]) (fun x hx => h x (List.mem_cons_of_mem c hx))]
    simp

theorem transform_no_backtick (t : String) (g : String → String)
    (h : ∀ c ∈ t.toList, c ≠ backtick) : transform t g = t := by
  obtain ⟨data⟩ := t
  unfold transform tokenize
  rw [scan_no_backtick _ _ h]
  cases data with
  | nil => rfl
  | cons c cs => simp [applyToks]

/-- The spec-modelled `transform` reproduces every fixture of the transform
test suite (`src/tests/escapedHashtags.js`, `describe("#transform()")`),
for both the default (identity) and the custom last-segment map. -/
theorem transform_fixtures :
    transform ("`#case/type/prop`") (fun s => s) = ("#case/type/prop") ∧
    transform ("`#case/type/prop`") lastSegment = ("prop") ∧
    transform ("`#case/type/prop`- 1") (fun s => s) = ("#case/type/prop - 1") ∧
    transform ("`#case/type/prop`- 1") lastSegment = ("prop - 1") ∧
    transform ("(`#case/type/prop`)") (fun s => s) = ("(#case/type/prop)") ∧
    transform ("(`#case/type/prop`)") lastSegment = ("(prop)") ∧
    transform ("(`#case/type/prop`") (fun s => s) = ("(#case/type/prop") ∧
    transform ("(`#case/type/prop`") lastSegment = ("(prop") ∧
    transform ("`#case/type/prop` = `#case/type/prop2`") (fun s => s) =
      ("#case/type/prop = #case/type/prop2") ∧
    transform ("`#case/type/prop` = `#case/type/prop2`") lastSegment =
      ("prop = prop2") ∧
    transform ("``") (fun s => s) = ("`") ∧
    transform ("``") lastSegment = ("`") ∧
    transform ("🍊you glad I didn't use 🍌`") (fun s => s) =
      ("🍊you glad I didn't use 🍌`") ∧
    transform ("🍊you glad I didn't use 🍌`") lastSegment =
      ("🍊you glad I didn't use 🍌`") ∧
    transform ("`🍠") (fun s => s) = ("`🍠") ∧
    transform ("`🍠") lastSegment = ("`🍠") ∧
    transform ("`#case/type/prop` = `") (fun s => s) = ("#case/type/prop = `") ∧
    transform ("`#case/type/prop` = `") lastSegment = ("prop = `") ∧
    transform ("`#case/type/prop` = ``") (fun s => s) = ("#case/type/prop = `") ∧
    transform ("`#case/type/prop` = ``") lastSegment = ("prop = `") ∧
    transform ("`#case/prop1``#case/prop2` = ``") (fun s => s) =
      ("#case/prop1#case/prop2 = `") ∧
    transform ("`#case/prop1``#case/prop2` = ``") lastSegment =
      ("prop1prop2 = `") ∧
    transform ("``#case/type/``prop` = ``") (fun s => s) =
      ("`#case/type/`prop = `") ∧
    transform ("``#case/type/``prop` = ``") lastSegment =
      ("`#case/type/`prop = `") :=
  ⟨rfl, rfl, rfl, rfl, rfl, rfl, rfl, rfl, rfl, rfl, rfl, rfl,
   rfl, rfl, rfl, rfl, rfl, rfl, rfl, rfl, rfl, rfl, rfl, rfl⟩

/-- One level of the walk computes exactly the record-fold over the visited
trace of the same level, provided the descent functions are related the same
way. -/
theorem walkGo_eq_visitGo (srcs : List Entity) (invalid : List String)
    (dW : List DataNode → List String → Hashtags → Option (Hashtags × List String))
    (dV : List DataNode → List String → Option (List DataNode × List String))
    (hco : ∀ ns sn a, dW ns sn a = (dV ns sn).map (fun r => (foldRecord r.1 a, r.2))) :
    ∀ (nodes : List DataNode) (seen : List String) (acc : Hashtags),
      walkGo srcs invalid dW nodes seen acc =
        (visitGo srcs invalid dV nodes seen).map (fun r => (foldRecord r.1 acc, r.2)) := by
  intro nodes
  induction nodes with
  | nil => intro seen acc; simp [walkGo, visitGo, foldRecord]
  | cons n rest ih =>
    intro seen acc
    rw [walkGo, visitGo]
    by_cases hrec : n.recursive
    · simp only [hrec, if_true]
      rw [ih]
      cases hv : visitGo srcs invalid dV rest seen with
      | none => rfl
      | some r => rcases r with ⟨tr, s⟩; simp [foldRecord]
    · simp only [hrec, Bool.false_eq_true, if_false]
      rcases hg : getNodes srcs invalid n.childSrc n.childPath n.childInfo seen
        with ⟨children, seen'⟩
      rw [hco]
      cases hv : dV children seen' with
      | none => rfl
      | some r =>
        rcases r with ⟨trc, seen2⟩
        simp only [Option.map]
        rw [ih]
        cases hv2 : visitGo srcs invalid dV rest seen2 with
        | none => rfl
        | some r' =>
          rcases r' with ⟨trr, seen3⟩
          simp [foldRecord, List.foldl_append]

/-- The walk computes exactly the record-fold over the visited trace. -/
theorem walk_eq_visit (srcs : List Entity) (invalid : List String) :
    ∀ (fuel : Nat) (nodes : List DataNode) (seen : List String) (acc : Hashtags),
      walk srcs invalid fuel nodes seen acc =
        (visit srcs invalid fuel nodes seen).map
          (fun r => (foldRecord r.1 acc, r.2)) := by
  intro fuel
  induction fuel with
  | zero =>
    intro nodes seen acc
    rw [walk, visit]
    exact walkGo_eq_visitGo srcs invalid (fun _ _ _ => none) (fun _ _ => none)
      (fun ns sn a => rfl) nodes seen acc
  | succ f ihf =>
    intro nodes seen acc
    rw [walk, visit]
    exact walkGo_eq_visitGo srcs invalid (walk srcs invalid f) (visit srcs invalid f)
      (fun ns sn a => ihf ns sn a) nodes seen acc

theorem hashPrefix_append_ne_empty (q w : String) : ("#case/" ++ q) ++ w ≠ "" := by
  intro h
  have hd := congrArg String.data h
  rw [String.data_append, String.data_append] at hd
  simp only [List.append_eq_nil] at hd
  exact absurd hd.1.1 (by decide)

/-- Every node produced by `node(...)` has either no hashtag or a non-empty
one (it starts with `#case/`), so the walk's JS truthiness test on
`node.hashtag` agrees with the spec's `hashtag != null`. -/
theorem nodeFn_tag (srcs : List Entity) (invalid : List String)
    (source : Option Entity) (pp : Option String) (info : Entity) (idx : Bool)
    (item : Entity) (id : String) (seen : List String) (n : DataNode)
    (h : (nodeFn srcs invalid source pp info idx item id seen).1 = some n) :
    truthyS n.hashtag = n.hashtag.isSome := by
  rw [nodeFn.eq_def] at h
  by_cases hin : invalid.contains id = true
  · rw [if_pos hin] at h
    simp at h
  · rw [if_neg hin] at h
    dsimp only at h
    rcases hg : getTree srcs item id
        (if truthyS pp = true then pp.getD "" ++ "/" ++ id else id) info seen
      with ⟨⟨nm, rec, cSrc, cPath, cInfo⟩, sn⟩
    rw [hg] at h
    dsimp only at h
    injection h with h2
    subst h2
    dsimp only
    cases source with
    | none => rfl
    | some s =>
      by_cases hcc : jsKey s.id = "commcaresession"
      · simp [hcc, truthyS]
      · simp [hcc, truthyS, hashPrefix_append_ne_empty]

/-- Membership in a compacted thread of `node(...)` calls yields nodes that
satisfy the hashtag truthiness agreement. -/
theorem mapThread_nodeFn_tag {α : Type}
    (f : α → List String → Option DataNode × List String)
    (hf : ∀ a st n, (f a st).1 = some n → truthyS n.hashtag = n.hashtag.isSome)
    (l : List α) (st : List String) :
    ∀ n ∈ ((mapThread f l st).1.filterMap (fun x => x)),
      truthyS n.hashtag = n.hashtag.isSome := by
  intro n hn
  rcases List.mem_filterMap.mp hn with ⟨a, ha, hid⟩
  rcases mapThread_mem f l st a ha with ⟨x, st', _, hax⟩
  exact hf x st' n (by rw [← hax]; exact hid)

/-- Every node of a built level satisfies the hashtag truthiness
agreement. -/
theorem getNodes_tag (srcs : List Entity) (invalid : List String)
    (source : Option Entity) (path : String) (info : Entity) (seen : List String) :
    ∀ n ∈ (getNodes srcs invalid source path info seen).1,
      truthyS n.hashtag = n.hashtag.isSome := by
  intro n hn
  rw [getNodes_eq_levelParts] at hn
  cases source with
  | none => simp [levelParts] at hn
  | some s =>
    cases hstru : s.struct with
    | none =>
      cases hrel : s.related with
      | none => simp [levelParts, hstru, hrel] at hn
      | some rels =>
        simp only [levelParts, hstru, hrel, List.filterMap_nil,
          List.append_nil] at hn
        exact mapThread_nodeFn_tag _
          (fun a st m hm => nodeFn_tag srcs invalid (some s)
            (some (path ++ "/index")) info true _ a.1 st m hm)
          rels seen n hn
    | some entries =>
      cases hrel : s.related with
      | none =>
        simp only [levelParts, hstru, hrel, List.nil_append] at hn
        exact mapThread_nodeFn_tag _
          (fun a st m hm => nodeFn_tag srcs invalid (some s)
            (some path) info false a.2 a.1 st m hm)
          entries seen n hn
      | some rels =>
        simp only [levelParts, hstru, hrel] at hn
        rcases List.mem_append.mp hn with h1 | h2
        · exact mapThread_nodeFn_tag _
            (fun a st m hm => nodeFn_tag srcs invalid (some s)
              (some (path ++ "/index")) info true _ a.1 st m hm)
            rels _ n h1
        · exact mapThread_nodeFn_tag _
            (fun a st m hm => nodeFn_tag srcs invalid (some s)
              (some path) info false a.2 a.1 st m hm)
            entries seen n h2

/-- Every node of a visited trace satisfies the hashtag truthiness
agreement, provided the input nodes do and the descent preserves it. -/
theorem visitGo_tag (srcs : List Entity) (invalid : List String)
    (dV : List DataNode → List String → Option (List DataNode × List String))
    (hd : ∀ ns sn tr s, dV ns sn = some (tr, s) →
        (∀ n ∈ ns, truthyS n.hashtag = n.hashtag.isSome) →
        ∀ n ∈ tr, truthyS n.hashtag = n.hashtag.isSome) :
    ∀ (nodes : List DataNode) (seen : List String) (tr : List DataNode)
      (s : List String),
      visitGo srcs invalid dV nodes seen = some (tr, s) →
      (∀ n ∈ nodes, truthyS n.hashtag = n.hashtag.isSome) →
      ∀ n ∈ tr, truthyS n.hashtag = n.hashtag.isSome := by
  intro nodes
  induction nodes with
  | nil =>
    intro seen tr s h _
    rw [visitGo] at h
    simp only [Option.some.injEq, Prod.mk.injEq] at h
    obtain ⟨h1, _⟩ := h
    subst h1
    intro m hm
    simp at hm
  | cons n rest ih =>
    intro seen tr s h hns
    rw [visitGo] at h
    by_cases hrec : n.recursive
    · rw [if_pos hrec] at h
      cases hv : visitGo srcs invalid dV rest seen with
      | none => rw [hv] at h; simp at h
      | some r =>
        rcases r with ⟨tr0, s0⟩
        rw [hv] at h
        simp only [Option.some.injEq, Prod.mk.injEq] at h
        obtain ⟨h1, h2⟩ := h
        subst h1; subst h2
        intro m hm
        rcases List.mem_cons.mp hm with rfl | hm2
        · exact hns m (List.mem_cons_self m rest)
        · exact ih seen tr0 s0 hv
            (fun x hx => hns x (List.mem_cons_of_mem n hx)) m hm2
    · rw [if_neg hrec] at h
      rcases hg : getNodes srcs invalid n.childSrc n.childPath n.childInfo seen
        with ⟨children, seen'⟩
      rw [hg] at h
      dsimp only at h
      cases hv : dV children seen' with
      | none => rw [hv] at h; simp at h
      | some r =>
        rcases r with ⟨trc, seen2⟩
        rw [hv] at h
        dsimp only at h
        cases hv2 : visitGo srcs invalid dV rest seen2 with
        | none => rw [hv2] at h; simp at h
        | some r' =>
          rcases r' with ⟨trr, seen3⟩
          rw [hv2] at h
          simp only [Option.some.injEq, Prod.mk.injEq] at h
          obtain ⟨h1, h2⟩ := h
          subst h1; subst h2
          intro m hm
          rcases List.mem_cons.mp hm with rfl | hm2
          · exact hns m (List.mem_cons_self m rest)
          · rcases List.mem_append.mp hm2 with hmc | hmr
            · have hch : ∀ x ∈ children, truthyS x.hashtag = x.hashtag.isSome := by
                intro x hx
                exact getNodes_tag srcs invalid n.childSrc n.childPath n.childInfo
                  seen x (by rw [hg]; exact hx)
              exact hd children seen' trc seen2 hv hch m hmc
            · exact ih seen2 trr seen3 hv2
                (fun x hx => hns x (List.mem_cons_of_mem n hx)) m hmr

/-- Every node of the fueled trace satisfies the hashtag truthiness
agreement, provided the input nodes do. -/
theorem visit_tag (srcs : List Entity) (invalid : List String) :
    ∀ (fuel : Nat) (nodes : List DataNode) (seen : List String)
      (tr : List DataNode) (s : List String),
      visit srcs invalid fuel nodes seen = some (tr, s) →
      (∀ n ∈ nodes, truthyS n.hashtag = n.hashtag.isSome) →
      ∀ n ∈ tr, truthyS n.hashtag = n.hashtag.isSome := by
  intro fuel
  induction fuel with
  | zero =>
    intro nodes seen tr s h hns
    rw [visit] at h
    exact visitGo_tag srcs invalid (fun _ _ => none)
      (fun ns sn tr' s' h' _ => by simp at h') nodes seen tr s h hns
  | succ f ihf =>
    intro nodes seen tr s h hns
    rw [visit] at h
    exact visitGo_tag srcs invalid (visit srcs invalid f)
      (fun ns sn tr' s' h' hP => ihf ns sn tr' s' h' hP) nodes seen tr s h hns

/-- Every exposed data node satisfies the hashtag truthiness agreement. -/
theorem dataNodesL_tag (srcs : List Entity) (invalid : List String)
    (nodes : List DataNode) (seen : List String)
    (h : dataNodesL srcs invalid = some (nodes, seen)) :
    ∀ n ∈ nodes, truthyS n.hashtag = n.hashtag.isSome := by
  rw [dataNodesL.eq_def] at h
  cases hidx : indexById srcs ("commcaresession") with
  | none => rw [hidx] at h; simp at h
  | some s0 =>
    rw [hidx] at h
    dsimp only at h
    rcases hnf : nodeFn srcs invalid (some s0) none s0 false s0 (rootPath s0) []
      with ⟨rootOpt, sn⟩
    rw [hnf] at h
    cases rootOpt with
    | none => simp at h
    | some root =>
      dsimp only at h
      simp only [Option.some.injEq] at h
      intro n hn
      exact getNodes_tag srcs invalid root.childSrc root.childPath root.childInfo
        sn n (by rw [h]; exact hn)

/-- The record-fold over a trace whose nodes satisfy the truthiness
agreement is the spec-side compile: entries exactly for the nodes with
`hashtag != null && !index`, in visiting order. -/
theorem foldRecord_eq :
    ∀ (tr : List DataNode) (m : List (String × String))
      (t : List (String × Option String)),
      (∀ n ∈ tr, truthyS n.hashtag = n.hashtag.isSome) →
      foldRecord tr ⟨m, t⟩ =
        ⟨(tr.filter tagRecorded).foldl
            (fun mm n => objSet mm (jsKey n.hashtag) n.xpath) m,
         (tr.filter tagRecorded).foldl
            (fun tt n => objSet tt (jsKey n.hashtagPfx) n.parentPath) t⟩ := by
  intro tr
  induction tr with
  | nil => intro m t _; rfl
  | cons n rest ih =>
    intro m t h
    have hn := h n (List.mem_cons_self n rest)
    have hrest := fun x hx => h x (List.mem_cons_of_mem n hx)
    have hstep : foldRecord (n :: rest) ⟨m, t⟩ =
        foldRecord rest (recordNode n ⟨m, t⟩) := rfl
    rw [hstep]
    by_cases hb : tagRecorded n = true
    · have hcond : (truthyS n.hashtag && !n.index) = true := by
        rw [hn]; rw [tagRecorded] at hb; exact hb
      have hrec : recordNode n ⟨m, t⟩ =
          ⟨objSet m (jsKey n.hashtag) n.xpath,
           objSet t (jsKey n.hashtagPfx) n.parentPath⟩ := by
        rw [recordNode, if_pos hcond]
      rw [hrec, ih _ _ hrest, List.filter_cons_of_pos hb,
        List.foldl_cons, List.foldl_cons]
    · have hb' : tagRecorded n = false := by
        cases hq : tagRecorded n
        · rfl
        · exact absurd hq hb
      have hcond : (truthyS n.hashtag && !n.index) = false := by
        rw [hn]; rw [tagRecorded] at hb'; exact hb'
      have hrec : recordNode n ⟨m, t⟩ = ⟨m, t⟩ := by
        rw [recordNode]
        simp [hcond]
      rw [hrec, ih _ _ hrest, List.filter_cons_of_neg (by simp [hb'])]

/-! ## Claim theorems -/

/-- C7 counterexample: with the session structure enumerating ids `b` then
`a`, the built sibling nodes keep that order (display names `"b"`, `"a"`),
which is not sorted by display name since `"a" < "b"`. -/
theorem C7_unsorted_counterexample :
    (dataNodesL unsortedSources []).map (fun r => r.1.map (fun n => n.name)) =
      some [("b"), ("a")] ∧ ("a" : String) < ("b" : String) := by
  refine ⟨rfl, ?_⟩
  rw [String.lt_iff_toList_lt]
  decide

/-- C7 (amended): at every level, the built sibling list is the
relation-derived nodes followed by the structural children, each in
descriptor enumeration order — the `_.sortBy(nodes, "text")` calls sort by a
property no node has and are stable no-ops. -/
theorem C7_related_first_enumeration_order (srcs : List Entity)
    (invalid : List String) (source : Option Entity) (path : String)
    (info : Entity) (seen : List String) :
    getNodes srcs invalid source path info seen =
      ((levelParts srcs invalid source path info seen).1.1 ++
         (levelParts srcs invalid source path info seen).1.2,
       (levelParts srcs invalid source path info seen).2) :=
  getNodes_eq_levelParts srcs invalid source path info seen

/-- C6 counterexample: with a compiled bundle cached and the initial
retry timeout, a descriptor fetch error does schedule a retry of the fetch
(`setTimeout(... loadDataSources ...)`), contradicting "the core itself
performs no retry". -/
theorem C6_retry_counterexample :
    (onError ⟨some ⟨[(("#form/text1"), ("/data/text1"))], []⟩, initialRetryTimeout⟩).2
      = true := rfl

/-- C6 (amended): after a descriptor fetch error the previously compiled
bundle remains usable (the cache is untouched), but the core itself retries
the fetch with exponential backoff: a retry is scheduled exactly while
`retryTimeout < 8001` (1000 → 2000 → 4000 → 8000, i.e. up to 4 retries),
doubling the timeout each time. -/
theorem C6_onError_preserves_cache_and_retries (st : LoaderState) :
    (onError st).1.cache = st.cache ∧
    (onError st).2 = decide (st.retryTimeout < 8001) ∧
    (onError st).1.retryTimeout =
      (if st.retryTimeout < 8001 then st.retryTimeout * 2 else st.retryTimeout) := by
  unfold onError
  by_cases h : st.retryTimeout < 8001 <;> simp [h]

/-- C10: a completed load with an empty descriptor list installs exactly the
`Not Found` placeholder source, and a completed load never yields an empty
cached source list. -/
theorem C10_placeholder_on_empty (data : List Entity) :
    finishSources data ≠ [] ∧
    (data = [] → finishSources data = [notFoundSource]) ∧
    (data ≠ [] → finishSources data = data) := by
  unfold finishSources
  cases data with
  | nil => simp
  | cons a l => simp

theorem C10_placeholder_on_empty_witness :
    finishSources [] = [notFoundSource] ∧ finishSources [leafEnt] = [leafEnt] := by
  exact ⟨(C10_placeholder_on_empty []).2.1 rfl,
         (C10_placeholder_on_empty [leafEnt]).2.2 (List.cons_ne_nil _ _)⟩

/-- C2: on the cyclic graph `A → B → A` the hashtag walk terminates, visits
exactly the five nodes (session's reference to `A`, `A`'s `name` and its
reference to `B`, `B`'s `color` and its re-entrant reference back to `A`),
marks only the re-entrant node `recursive`, never expands its children
(nothing is visited after it), and the compiled map still holds every
non-cyclic hashtag of both `A` and `B`. -/
theorem C2_cycle_terminates_and_collects :
    (visitTop cycSources [] 20).map (fun r => r.1.map (fun n => (n.hashtag, n.recursive))) =
      some [(none, false), (some ("#case/A/name"), false), (some ("#case/A/bref"), false),
            (some ("#case/B/color"), false), (some ("#case/B/aref"), true)] ∧
    (hashtagsBuilder cycSources [] 20).map (fun r => r.1.map) =
      some [(("#case/A/name"),
             ("instance('A')/A[@case_id = instance('commcaresession')/session/data/caseref]/name")),
            (("#case/A/bref"),
             ("instance('A')/A[@case_id = instance('commcaresession')/session/data/caseref]/bref")),
            (("#case/B/color"),
             ("instance('B')/B[@kb = instance('A')/A[@case_id = instance('commcaresession')/session/data/caseref]/bref]/color")),
            (("#case/B/aref"),
             ("instance('B')/B[@kb = instance('A')/A[@case_id = instance('commcaresession')/session/data/caseref]/bref]/aref"))] := by
  exact ⟨rfl, rfl⟩

/-- C4: evaluating the code on a source `A` with base structure `{name}`
and a subset `mother` adding `{color}`: the compiled map for the subset
contains the subset-added `#case/mother/color` but *not* the base
`#case/mother/name` — the subset's structure replaces the unfiltered
structure instead of being merged on top of it, contradicting the module's
own format documentation. -/
theorem C4_subset_structure_replaces :
    (hashtagsBuilder subSources [] 20).map (fun r =>
        (objGet r.1.map ("#case/mother/color"), objGet r.1.map ("#case/mother/name"))) =
      some (some ("instance('A')/A[@case_id = instance('commcaresession')/session/mother-case]/color"),
            none) := rfl

/-- C8 counterexample: the composition law fails because `transform` strips
the backtick delimiters, so the hashtag of `s` is invisible to the second
pass: with `f` the identity and `g` constant, the two sides differ on the
balanced input `` `#a` ``. -/
theorem C8_composition_counterexample :
    transform (transform ("`#a`") (fun x => x)) (fun _ => ("X")) ≠
      transform ("`#a`") ((fun _ => ("X")) ∘ (fun x => x)) := by decide

/-- C8 (amended): because `transform` strips the delimiters, a second
transform is the identity on any first-pass output that contains no
backtick (in particular for balanced input whose literal text and rewritten
hashtags are backtick-free), rather than applying the composed map. -/
theorem C8_second_transform_identity (s : String) (f g : String → String)
    (h : backtick ∉ (transform s f).toList) :
    transform (transform s f) g = transform s f :=
  transform_no_backtick (transform s f) g (fun _ hc he => h (he ▸ hc))

theorem C8_second_transform_identity_witness :
    (backtick ∉ (transform ("`#a`") (fun x => x)).toList) ∧
    transform (transform ("`#a`") (fun x => x)) (fun _ => ("X")) =
      transform ("`#a`") (fun x => x) :=
  ⟨by decide, C8_second_transform_identity ("`#a`") (fun x => x) (fun _ => ("X")) (by decide)⟩

/-- C1 counterexample: `sibSources` is acyclic, and the same source `T` is
referenced from the two disjoint sibling branches `p` and `q`.  The claim
requires both reference nodes to be built with `recursive = false`, but the
build-wide `seen` set is never pruned, so the branch expanded second gets
`recursive = true`. -/
theorem C1_sibling_counterexample :
    (visitTop sibSources [] 20).map (fun r => r.1.map (fun n => (n.name, n.recursive))) =
      some [(("p"), false), (("T"), false), (("name"), false), (("q"), false),
            (("T"), true)] := rfl

/-- C1 (amended): a resolvable reference node is marked `recursive = true`
exactly when the (post-subset-selection) target source id is already in the
build-global `seen` set at construction time, and otherwise the id is added
to `seen` — membership of the current ancestor chain plays no role. -/
theorem C1_recursive_iff_globally_seen
    (srcs : List Entity) (invalid : List String) (source : Option Entity)
    (pp : Option String) (info : Entity) (idx : Bool) (item : Entity)
    (id : String) (seen : List String) (ref : DSRef) (src0 : Entity)
    (hs : item.struct = none) (hr : item.reference = some ref)
    (hfind : indexById srcs (jsKey (jsOr ref.source info.id)) = some src0)
    (hinv : invalid.contains id = false) :
    ((nodeFn srcs invalid source pp info idx item id seen).1.map
        (fun n => n.recursive)) =
      some (seen.contains (jsKey (resolveSubset src0 ref).id)) ∧
    (nodeFn srcs invalid source pp info idx item id seen).2 =
      (if seen.contains (jsKey (resolveSubset src0 ref).id) then seen
       else jsKey (resolveSubset src0 ref).id :: seen) := by
  rw [nodeFn.eq_def]
  simp only [hinv, Bool.false_eq_true, if_false]
  simp only [getTree.eq_def, hs, hr, hfind]
  by_cases hc : jsKey (resolveSubset src0 ref).id ∈ seen <;> simp [hc]

theorem C1_recursive_iff_globally_seen_witness :
    indexById sibSources
        (jsKey (jsOr (some ("T")) (sourceEnt ("commcaresession") ("/session") []).id)) =
      some (sourceEnt ("T") ("/T") [(("name"), leafEnt)]) ∧
    ((nodeFn sibSources [] (some (sourceEnt ("commcaresession") ("/session") []))
        (some ("instance('commcaresession')/session/q")) (sourceEnt ("commcaresession") ("/session") [])
        false (refEnt (some ("T")) none ("@k2")) ("y") [("T")]).1.map
        (fun n => n.recursive)) = some true := by
  refine ⟨rfl, ?_⟩
  have h := C1_recursive_iff_globally_seen sibSources []
    (some (sourceEnt ("commcaresession") ("/session") []))
    (some ("instance('commcaresession')/session/q"))
    (sourceEnt ("commcaresession") ("/session") []) false
    (refEnt (some ("T")) none ("@k2")) ("y") [("T")]
    ⟨some ("T"), none, ("@k2")⟩ (sourceEnt ("T") ("/T") [(("name"), leafEnt)])
    rfl rfl rfl rfl
  exact h.1.trans (by rfl)

/-- C5: a reference whose target source id matches no descriptor resolves
to `source = undefined`: the builder still produces a node for it, with the
path left unrewritten, not recursive, and with no children; the shared
`seen` state is untouched, so the rest of the build is unaffected. -/
theorem C5_unresolved_reference_isolated
    (srcs : List Entity) (invalid : List String) (source : Option Entity)
    (pp : Option String) (info : Entity) (idx : Bool) (item : Entity)
    (id : String) (seen : List String) (ref : DSRef)
    (hs : item.struct = none) (hr : item.reference = some ref)
    (hfind : indexById srcs (jsKey (jsOr ref.source info.id)) = none)
    (hinv : invalid.contains id = false) :
    ∃ n, nodeFn srcs invalid source pp info idx item id seen = (some n, seen) ∧
      n.xpath = (if truthyS pp then pp.getD "" ++ "/" ++ id else id) ∧
      n.recursive = false ∧ n.childSrc = none ∧ n.childPath = n.xpath ∧
      getNodes srcs invalid n.childSrc n.childPath n.childInfo seen = ([], seen) := by
  rw [nodeFn.eq_def]
  simp only [hinv, Bool.false_eq_true, if_false]
  simp only [getTree.eq_def, hs, hr, hfind]
  exact ⟨_, rfl, rfl, rfl, rfl, rfl, rfl⟩

theorem C5_unresolved_reference_isolated_witness :
    indexById badRefSources (jsKey (jsOr (some ("NOPE"))
        (sourceEnt ("commcaresession") ("/session") []).id)) = none ∧
    (∃ n, nodeFn badRefSources [] (some (sourceEnt ("commcaresession") ("/session") []))
        (some ("instance('commcaresession')/session")) (sourceEnt ("commcaresession") ("/session") [])
        false (refEnt (some ("NOPE")) none ("@k")) ("bad") [] = (some n, []) ∧
      n.xpath = (if truthyS (some ("instance('commcaresession')/session"))
                 then (some ("instance('commcaresession')/session")).getD "" ++ "/" ++ ("bad")
                 else ("bad")) ∧
      n.recursive = false ∧ n.childSrc = none ∧ n.childPath = n.xpath ∧
      getNodes badRefSources [] n.childSrc n.childPath n.childInfo [] = ([], [])) ∧
    (visitTop badRefSources [] 20).map (fun r =>
        r.1.map (fun n => (n.name, n.xpath, n.recursive))) =
      some [(("good"), ("instance('commcaresession')/session/good"), false),
            (("bad"), ("instance('commcaresession')/session/bad"), false)] := by
  refine ⟨rfl, ?_, rfl⟩
  exact C5_unresolved_reference_isolated badRefSources []
    (some (sourceEnt ("commcaresession") ("/session") []))
    (some ("instance('commcaresession')/session"))
    (sourceEnt ("commcaresession") ("/session") []) false
    (refEnt (some ("NOPE")) none ("@k")) ("bad") []
    ⟨some ("NOPE"), none, ("@k")⟩ rfl rfl rfl rfl

/-- C9: `builders.dataNodes` yields nothing when no `commcaresession`
source is among the descriptors; when one is present it becomes the tree
root and only its children are exposed — on `cycSources` the result is the
single child of the session structure, whose `parentPath` is the suppressed
root's path, the root node itself not appearing. -/
theorem C9_root_absent_or_suppressed :
    (∀ (srcs : List Entity) (invalid : List String),
        indexById srcs ("commcaresession") = none → dataNodesL srcs invalid = none) ∧
    ((dataNodesL cycSources []).map (fun r =>
        r.1.map (fun n => (n.name, n.xpath, n.parentPath))) =
      some [(("A"), ("instance('commcaresession')/session/data/caseref"),
             some ("instance('commcaresession')/session/data"))]) := by
  constructor
  · intro srcs invalid h
    unfold dataNodesL
    rw [h]
  · rfl

/-- C3: whenever the hashtag walk completes, its result is exactly the
spec-side compile of the visited trace: entries `hashtagMap[hashtag] = xpath`
and `transforms[hashtagPrefix] = parentPath`-closure for precisely the
visited nodes with `hashtag != null && !index` (the JS truthiness test
agrees with `hashtag != null` on every visited node), in visiting order;
the trace (`visit`) descends into `getNodes()` only for non-`recursive`
nodes, so the children of a recursive node are never visited. -/
theorem C3_walk_records_exactly_visited (srcs : List Entity)
    (invalid : List String) (fuel : Nat) (hts : Hashtags) (s : List String)
    (h : hashtagsBuilder srcs invalid fuel = some (hts, s)) :
    ∃ tr, visitTop srcs invalid fuel = some (tr, s) ∧ hts = specCompile tr ∧
      ∀ n ∈ tr, truthyS n.hashtag = n.hashtag.isSome := by
  rw [hashtagsBuilder.eq_def] at h
  rw [visitTop.eq_def]
  cases hd : dataNodesL srcs invalid with
  | none => rw [hd] at h; simp at h
  | some r =>
    rcases r with ⟨nodes, seen⟩
    rw [hd] at h
    dsimp only at h
    rw [walk_eq_visit] at h
    cases hv : visit srcs invalid fuel nodes seen with
    | none => rw [hv] at h; simp at h
    | some rv =>
      rcases rv with ⟨tr, s'⟩
      rw [hv] at h
      simp only [Option.map_some', Option.some.injEq, Prod.mk.injEq] at h
      obtain ⟨h1, h2⟩ := h
      subst h2
      have hwf : ∀ n ∈ tr, truthyS n.hashtag = n.hashtag.isSome :=
        visit_tag srcs invalid fuel nodes seen tr s' hv
          (dataNodesL_tag srcs invalid nodes seen hd)
      refine ⟨tr, ?_, ?_, hwf⟩
      · dsimp only
        exact hv
      · rw [← h1, foldRecord_eq tr [] [] hwf]
        rfl

theorem C3_walk_records_exactly_visited_witness :
    hashtagsBuilder unsortedSources [] 20 = some (⟨[], []⟩, []) ∧
    (∃ tr, visitTop unsortedSources [] 20 = some (tr, []) ∧
      (⟨[], []⟩ : Hashtags) = specCompile tr ∧
      ∀ n ∈ tr, truthyS n.hashtag = n.hashtag.isSome) :=
  ⟨rfl, C3_walk_records_exactly_visited unsortedSources [] 20 ⟨[], []⟩ [] rfl⟩

theorem C9_root_absent_or_suppressed_witness :
    indexById [sourceEnt ("A") ("/A") []] ("commcaresession") = none ∧
    dataNodesL [sourceEnt ("A") ("/A") []] [] = none :=
  ⟨rfl, C9_root_absent_or_suppressed.1 [sourceEnt ("A") ("/A") []] [] rfl⟩

end Vellum
